import Mathlib

/-!
Shallow embedding of `cmd/ctl/pkg/status/certificate/types.go` from the
cert-manager repository: the certificate status builder, its `with*`
accumulation methods, the sub-report `String` renderers, and the key-usage /
extended-key-usage decoders.

Modelling conventions:
* Go `error` values are modelled by their message, so an `error` field becomes
  `Option String` (`nil` ↦ `none`).
* Go pointers (`*IssuerStatus`, `*v1.EventList`, …) become `Option`.
* Go `int`-typed values (`x509.KeyUsage`, `x509.ExtKeyUsage`) become `Int`.
* Byte slices become `List Nat` (one entry per byte).
* `metav1.Time` is opaque to this code (only stored, never rendered here), so
  it is modelled as `Int`; `v1.EventList` is likewise only passed through, so
  it is modelled as a list of opaque event strings.
* External collaborators that are not part of this repository
  (`pki.DecodeX509CertificateBytes`, the `DescribeEvents` event renderer) are
  taken as function parameters.
-/

namespace CertStatus

/-- Opaque stand-in for `metav1.Time`: the code only stores and copies times. -/
abbrev Time := Int

/-- Opaque stand-in for `v1.EventList`: the code only stores and forwards it. -/
abbrev EventList := List String

/-- A status condition tuple; cert-manager's `CertificateCondition`,
`IssuerCondition` and `CertificateRequestCondition` all carry these four
rendered fields (`Type`, `Status`, `Reason`, `Message`). -/
structure Condition where
  «Type» : String
  Status : String
  Reason : String
  Message : String
deriving Repr, DecidableEq

/-- Embeds `IssuerStatus` from types.go. -/
structure IssuerStatus where
  Error : Option String
  Name : String
  Kind : String
  Conditions : List Condition
deriving Repr, DecidableEq

/-- Embeds `SecretStatus` from types.go. `PublicKeyAlgorithm` and
`SignatureAlgorithm` are rendered by the Go standard library's `String()`
methods, which this code treats as opaque, so they are modelled directly by
their rendered names; the Go zero value of each field is the empty value here
(`nil *big.Int` serial ↦ `0`, reached only in failed statuses whose fields the
code never reads). -/
structure SecretStatus where
  Error : Option String
  Name : String
  IssuerCountry : List String
  IssuerOrganisation : List String
  IssuerCommonName : String
  KeyUsage : Int
  ExtKeyUsage : List Int
  PublicKeyAlgorithm : String
  SignatureAlgorithm : String
  SubjectKeyId : List Nat
  AuthorityKeyId : List Nat
  SerialNumber : Int
deriving Repr, DecidableEq

/-- Embeds `CRStatus` from types.go. -/
structure CRStatus where
  Error : Option String
  Name : String
  Namespace : String
  Conditions : List Condition
  Events : Option EventList
deriving Repr, DecidableEq

/-- Embeds `CertificateStatusBuilder` from types.go. -/
structure CertificateStatusBuilder where
  Name : String
  Namespace : String
  CreationTime : Time
  Conditions : List Condition
  DNSNames : List String
  Events : Option EventList
  NotBefore : Option Time
  NotAfter : Option Time
  RenewalTime : Option Time
  IssuerKind : String
  IssuerStatus : Option IssuerStatus
  SecretStatus : Option SecretStatus
  CRStatus : Option CRStatus
deriving Repr, DecidableEq

/-- The fields of a `cmapiv1alpha2.Issuer` that `withIssuer` reads. -/
structure Issuer where
  Name : String
  Conditions : List Condition
deriving Repr, DecidableEq

/-- The fields of a `cmapiv1alpha2.ClusterIssuer` that `withClusterIssuer` reads. -/
structure ClusterIssuer where
  Name : String
  Conditions : List Condition
deriving Repr, DecidableEq

/-- The fields of a `cmapiv1alpha2.CertificateRequest` that `withCR` reads. -/
structure CertificateRequest where
  Name : String
  Namespace : String
  Conditions : List Condition
deriving Repr, DecidableEq

/-- The fields of a `v1.Secret` that `withSecret` reads: its name and its
`Data` map from keys to byte slices (a missing key looks up to `[]`, matching
Go's `nil` slice for a missing map entry). -/
structure Secret where
  Name : String
  Data : List (String × List Nat)
deriving Repr, DecidableEq

/-- The fields of a parsed `x509.Certificate` that `withSecret` copies. -/
structure X509Cert where
  IssuerCountry : List String
  IssuerOrganization : List String
  IssuerCommonName : String
  KeyUsage : Int
  ExtKeyUsage : List Int
  PublicKeyAlgorithm : String
  SignatureAlgorithm : String
  SubjectKeyId : List Nat
  AuthorityKeyId : List Nat
  SerialNumber : Int
deriving Repr, DecidableEq

/-- Models Go's `%q` on cert-manager resource names (which contain no
characters needing escapes): the name wrapped in double quotes. -/
def goQuote (s : String) : String := "\"" ++ s ++ "\""

/-- Embeds `withIssuer` from types.go. `&IssuerStatus{Error: err}` leaves the
other fields at their Go zero values. -/
def withIssuer (builder : CertificateStatusBuilder) (issuer : Option Issuer)
    (err : Option String) : CertificateStatusBuilder :=
  match err with
  | some e => { builder with IssuerStatus := some ⟨some e, "", "", []⟩ }
  | none =>
    match issuer with
    | none => builder
    | some iss =>
      { builder with IssuerStatus := some ⟨none, iss.Name, "Issuer", iss.Conditions⟩ }

/-- Embeds `withClusterIssuer` from types.go. -/
def withClusterIssuer (builder : CertificateStatusBuilder)
    (clusterIssuer : Option ClusterIssuer) (err : Option String) :
    CertificateStatusBuilder :=
  match err with
  | some e => { builder with IssuerStatus := some ⟨some e, "", "", []⟩ }
  | none =>
    match clusterIssuer with
    | none => builder
    | some iss =>
      { builder with IssuerStatus := some ⟨none, iss.Name, "ClusterIssuer", iss.Conditions⟩ }

/-- A `SecretStatus` holding only an error, i.e. Go's `&SecretStatus{Error: err}`
with every other field at its zero value. -/
def failedSecretStatus (e : String) : SecretStatus :=
  ⟨some e, "", [], [], "", 0, [], "", "", [], [], 0⟩

/-- Embeds `withSecret` from types.go. `decode` stands for the external
`pki.DecodeX509CertificateBytes`, returning either a parse-error message or
the parsed certificate. -/
def withSecret (decode : List Nat → Except String X509Cert)
    (builder : CertificateStatusBuilder) (secret : Option Secret)
    (err : Option String) : CertificateStatusBuilder :=
  match err with
  | some e => { builder with SecretStatus := some (failedSecretStatus e) }
  | none =>
    match secret with
    | none => builder
    | some s =>
      let certData := (s.Data.lookup "tls.crt").getD []
      if certData.length = 0 then
        { builder with SecretStatus := some (failedSecretStatus
            ("error: 'tls.crt' of Secret " ++ goQuote s.Name ++ " is not set\n")) }
      else
        match decode certData with
        | .error e =>
          { builder with SecretStatus := some (failedSecretStatus
              ("error when parsing 'tls.crt' of Secret " ++ goQuote s.Name ++ ": " ++ e ++ "\n")) }
        | .ok cert =>
          let okStatus : SecretStatus :=
            ⟨none, s.Name, cert.IssuerCountry, cert.IssuerOrganization,
             cert.IssuerCommonName, cert.KeyUsage, cert.ExtKeyUsage,
             cert.PublicKeyAlgorithm, cert.SignatureAlgorithm,
             cert.SubjectKeyId, cert.AuthorityKeyId, cert.SerialNumber⟩
          { builder with SecretStatus := some okStatus }

/-- Embeds `withCR` from types.go: a non-nil error sets a failed `CRStatus`; a
nil request is a no-op; otherwise the builder's `Events` field is overwritten
with the supplied list and an ok `CRStatus` is stored
(`&CRStatus{Name:, Namespace:, Conditions:}` leaves its `Events` at `nil`). -/
def withCR (builder : CertificateStatusBuilder) (req : Option CertificateRequest)
    (events : Option EventList) (err : Option String) : CertificateStatusBuilder :=
  match err with
  | some e => { builder with CRStatus := some ⟨some e, "", "", [], none⟩ }
  | none =>
    match req with
    | none => builder
    | some r =>
      { builder with Events := events,
                     CRStatus := some ⟨none, r.Name, r.Namespace, r.Conditions, none⟩ }

/-- Embeds `CertificateStatus` from types.go. -/
structure CertificateStatus where
  Name : String
  Namespace : String
  CreationTime : Time
  Conditions : List Condition
  DNSNames : List String
  Events : Option EventList
  NotBefore : Option Time
  NotAfter : Option Time
  RenewalTime : Option Time
  IssuerKind : String
  IssuerStatus : Option IssuerStatus
  SecretStatus : Option SecretStatus
  CRStatus : Option CRStatus
deriving Repr, DecidableEq

/-- Embeds `build` from types.go: snapshot every accumulated field. -/
def build (builder : CertificateStatusBuilder) : CertificateStatus :=
  ⟨builder.Name, builder.Namespace, builder.CreationTime, builder.Conditions,
   builder.DNSNames, builder.Events, builder.NotBefore, builder.NotAfter,
   builder.RenewalTime, builder.IssuerKind, builder.IssuerStatus,
   builder.SecretStatus, builder.CRStatus⟩

/-- Embeds the `keyUsageToStringMap` map literal from types.go; a Go map
lookup at a missing key yields the zero value `""`. -/
def keyUsageToStringMap (val : Int) : String :=
  if val = 1 then "Digital Signature"
  else if val = 2 then "Content Commitment"
  else if val = 4 then "Key Encipherment"
  else if val = 8 then "Data Encipherment"
  else if val = 16 then "Key Agreement"
  else if val = 32 then "Cert Sign"
  else if val = 64 then "CRL Sign"
  else if val = 128 then "Encipher Only"
  else if val = 256 then "Decipher Only"
  else ""

/-- Embeds `keyUsagePossibleValues` from types.go. -/
def keyUsagePossibleValues : List Int := [256, 128, 64, 32, 16, 8, 4, 2, 1]

/-- Embeds the loop body of `keyUsageToString`: walk the candidate values,
subtracting each value `≤` the running remainder and appending its label, and
break as soon as the remainder is zero (the break test runs at the end of
every iteration, also when nothing was subtracted). -/
def keyUsageLoop : Int → List Int → List String
  | _, [] => []
  | usageInt, val :: rest =>
    if val ≤ usageInt then
      if usageInt - val = 0 then [keyUsageToStringMap val]
      else keyUsageToStringMap val :: keyUsageLoop (usageInt - val) rest
    else
      if usageInt = 0 then [] else keyUsageLoop usageInt rest

/-- Embeds `keyUsageToString` from types.go: run the greedy loop, reverse the
collected labels in place, and join with a comma. -/
def keyUsageToString (usage : Int) : String :=
  String.intercalate ", " (keyUsageLoop usage keyUsagePossibleValues).reverse

/-- Embeds `extKeyUsageStringValues` from types.go (14 labels, codes 0..13). -/
def extKeyUsageStringValues : List String :=
  ["Any", "Server Authentication", "Client Authentication", "Code Signing",
   "Email Protection", "IPSEC End System", "IPSEC Tunnel", "IPSEC User",
   "Time Stamping", "OCSP Signing", "Microsoft Server Gated Crypto",
   "Netscape Server Gated Crypto", "Microsoft Commercial Code Signing",
   "Microsoft Kernel Code Signing"]

/-- The error message `extKeyUsageToString` produces for an out-of-range code. -/
def extKeyUsageErr (extUsage : Int) : String :=
  "error when converting Extended Usages to string: encountered unknown Extended Usage with code "
    ++ toString extUsage

/-- Embeds the loop of `extKeyUsageToString`: accumulate the label of each
code in order, aborting with an error (and no partial result) at the first
code that is negative or `≥ len(extKeyUsageStringValues)`. -/
def extKeyUsageAux : List Int → List String → Except String String
  | [], extUsageStrings => .ok (String.intercalate ", " extUsageStrings)
  | extUsage :: rest, extUsageStrings =>
    if extUsage < 0 ∨ (extKeyUsageStringValues.length : Int) ≤ extUsage then
      .error (extKeyUsageErr extUsage)
    else
      extKeyUsageAux rest (extUsageStrings ++ [extKeyUsageStringValues.getD extUsage.toNat ""])

/-- Embeds `extKeyUsageToString` from types.go. -/
def extKeyUsageToString (extUsages : List Int) : Except String String :=
  extKeyUsageAux extUsages []

/-- Decides the out-of-range test of `extKeyUsageToString` as a Bool, for
locating the first offending code of an input list. -/
def extBad (extUsage : Int) : Bool :=
  decide (extUsage < 0) || decide ((extKeyUsageStringValues.length : Int) ≤ extUsage)

/-- The first code of the list that `extKeyUsageToString` rejects, if any. -/
def firstBadExt (extUsages : List Int) : Option Int := extUsages.find? extBad

/-- One condition line of the renderers, i.e. one iteration of the
`conditionMsg` loops shared verbatim by `IssuerStatus.String` and
`CRStatus.String` in types.go. -/
def condLine (con : Condition) : String :=
  "  " ++ con.«Type» ++ ": " ++ con.Status ++ ", Reason: " ++ con.Reason ++
    ", Message: " ++ con.Message ++ "\n"

/-- The `conditionMsg` computation shared verbatim by `IssuerStatus.String`
and `CRStatus.String` in types.go: concatenate one line per condition and
substitute the literal "No Conditions set" line when the result is empty. -/
def renderConditions (cs : List Condition) : String :=
  let conditionMsg := cs.foldl (fun acc con => acc ++ condLine con) ""
  if conditionMsg = "" then "  No Conditions set\n" else conditionMsg

/-- Embeds the Go method `func (issuerStatus *IssuerStatus) String() string`
from types.go (named `render` here because `String` is taken in Lean). -/
def IssuerStatus.render (issuerStatus : IssuerStatus) : String :=
  match issuerStatus.Error with
  | some e => e
  | none =>
    "Issuer:\n  Name: " ++ issuerStatus.Name ++ "\n  Kind: " ++ issuerStatus.Kind ++
      "\n  Conditions:\n  " ++ renderConditions issuerStatus.Conditions

/-- Hex alphabet of Go's `encoding/hex` (its `hextable` constant, lowercase). -/
def hexChars : List Char := "0123456789abcdef".toList

/-- One lowercase hex digit. -/
def hexDigit (n : Nat) : Char := hexChars.getD n '0'

/-- Two lowercase hex digits of one byte, high nibble first, as in
Go's `encoding/hex`. -/
def hexByte (b : Nat) : List Char := [hexDigit (b / 16), hexDigit (b % 16)]

/-- Models Go's `hex.EncodeToString`: two lowercase hex digits per byte. -/
def hexEncodeToString (bs : List Nat) : String := ⟨(bs.map hexByte).flatten⟩

/-- The base-256 digits of `n`, least significant first, with structural fuel
(`n` itself bounds the number of digits, since `n / 256 < n` for `n > 0`). -/
def natBytesLEAux : Nat → Nat → List Nat
  | 0, _ => []
  | _ + 1, 0 => []
  | fuel + 1, n + 1 => ((n + 1) % 256) :: natBytesLEAux fuel ((n + 1) / 256)

/-- The base-256 digits of a natural number, least significant first. -/
def natBytesLE (n : Nat) : List Nat := natBytesLEAux n n

/-- Models Go's `(*big.Int).Bytes()`: the big-endian bytes of the absolute
value, empty for zero. -/
def bigIntBytes (i : Int) : List Nat := (natBytesLE i.natAbs).reverse

/-- Embeds the Go method `func (secretStatus *SecretStatus) String() string`
from types.go; the `PublicKeyAlgorithm`/`SignatureAlgorithm` fields already
hold their standard-library renderings (see `SecretStatus`). -/
def SecretStatus.render (secretStatus : SecretStatus) : String :=
  match secretStatus.Error with
  | some e => e
  | none =>
    let extKeyUsageString :=
      match extKeyUsageToString secretStatus.ExtKeyUsage with
      | .ok s => s
      | .error e => e
    "Secret:\n  Name: " ++ secretStatus.Name ++
      "\n  Issuer Country: " ++ String.intercalate ", " secretStatus.IssuerCountry ++
      "\n  Issuer Organisation: " ++ String.intercalate ", " secretStatus.IssuerOrganisation ++
      "\n  Issuer Common Name: " ++ secretStatus.IssuerCommonName ++
      "\n  Key Usage: " ++ keyUsageToString secretStatus.KeyUsage ++
      "\n  Extended Key Usages: " ++ extKeyUsageString ++
      "\n  Public Key Algorithm: " ++ secretStatus.PublicKeyAlgorithm ++
      "\n  Signature Algorithm: " ++ secretStatus.SignatureAlgorithm ++
      "\n  Subject Key ID: " ++ hexEncodeToString secretStatus.SubjectKeyId ++
      "\n  Authority Key ID: " ++ hexEncodeToString secretStatus.AuthorityKeyId ++
      "\n  Serial Number: " ++ hexEncodeToString (bigIntBytes secretStatus.SerialNumber) ++ "\n"

/-- Models what `fmt.Println(buf.Bytes())` writes to standard output in
`CRStatus.String`: Go renders a byte slice as bracketed space-separated
decimals followed by a newline (character code points stand in for UTF-8
bytes here; the claims only depend on the fact that a line is printed). -/
def goBytesPrintln (s : String) : String :=
  "[" ++ String.intercalate " " (s.toList.map (fun c => toString c.toNat)) ++ "]\n"

/-- Concatenation of a list of strings, used to state how the condition loops
unfold. -/
def catStrings : List String → String
  | [] => ""
  | s :: rest => s ++ catStrings rest

/-- A concrete builder used by witness statements. -/
def sampleBuilder : CertificateStatusBuilder :=
  ⟨"my-cert", "default", 0, [], [], none, none, none, none, "", none, none, none⟩

/-- Embeds the Go method `func (crStatus *CRStatus) String() string` from
types.go. `describeEvents` stands for the external event-rendering pipeline
(`NewTabWriter`/`NewPrefixWriter`/`DescribeEvents`/`Flush`) writing into the
buffer. The second component records what the method itself prints to
standard output via `fmt.Println(buf.Bytes())`. -/
def CRStatus.render (describeEvents : Option EventList → String)
    (crStatus : CRStatus) : String × List String :=
  match crStatus.Error with
  | some e => (e, [])
  | none =>
    let conditionMsg := renderConditions crStatus.Conditions
    let infos := "CertificateRequest:" ++
      ("\n  Name: " ++ crStatus.Name ++ "\n  Namespace: " ++ crStatus.Namespace ++
        "\n  Conditions:\n  " ++ conditionMsg)
    let buf := describeEvents crStatus.Events
    (infos ++ buf, [goBytesPrintln buf])

/-! Helper lemmas. -/

theorem append_ne_empty_of_left_ne (a b : String) (ha : a ≠ "") : a ++ b ≠ "" := by
  intro h
  have hdata := congrArg String.data h
  rw [String.data_append] at hdata
  exact ha (String.ext (List.append_eq_nil.mp hdata).1)

theorem append_ne_empty_of_right_ne (a b : String) (hb : b ≠ "") : a ++ b ≠ "" := by
  intro h
  have hdata := congrArg String.data h
  rw [String.data_append] at hdata
  exact hb (String.ext (List.append_eq_nil.mp hdata).2)

theorem condLine_ne_empty (con : Condition) : condLine con ≠ "" := by
  unfold condLine
  exact append_ne_empty_of_right_ne _ _ (by decide)

theorem foldl_condLine (cs : List Condition) : ∀ acc : String,
    cs.foldl (fun a con => a ++ condLine con) acc = acc ++ catStrings (cs.map condLine) := by
  induction cs with
  | nil => intro acc; simp [catStrings, String.append_empty]
  | cons con rest ih =>
    intro acc
    simp only [List.foldl_cons, List.map_cons, catStrings]
    rw [ih, String.append_assoc]

theorem keyUsageLoop_step (u v : Int) (rest : List Int) (hv : v ≤ u)
    (hnz : u - v ≠ 0) :
    keyUsageLoop u (v :: rest) = keyUsageToStringMap v :: keyUsageLoop (u - v) rest := by
  simp only [keyUsageLoop]
  rw [if_pos hv, if_neg hnz]

theorem keyUsageLoop_last (u : Int) (h : 1 ≤ u) :
    keyUsageLoop u [1] = [keyUsageToStringMap 1] := by
  simp only [keyUsageLoop]
  rw [if_pos h]
  by_cases h0 : u - 1 = 0 <;> simp [h0, keyUsageLoop]

theorem extKeyUsageAux_ok (us : List Int) : ∀ acc : List String,
    (∀ u ∈ us, extBad u = false) →
    extKeyUsageAux us acc = .ok (String.intercalate ", "
      (acc ++ us.map (fun u => extKeyUsageStringValues.getD u.toNat ""))) := by
  induction us with
  | nil => intro acc _; simp [extKeyUsageAux]
  | cons u rest ih =>
    intro acc h
    have hu : extBad u = false := h u (List.mem_cons_self u rest)
    have hcond : ¬(u < 0 ∨ (extKeyUsageStringValues.length : Int) ≤ u) := by
      simpa [extBad, not_or] using hu
    unfold extKeyUsageAux
    rw [if_neg hcond, ih _ (fun v hv => h v (List.mem_cons_of_mem u hv))]
    simp

theorem extKeyUsageAux_err (us : List Int) : ∀ (acc : List String) (u : Int),
    firstBadExt us = some u → extKeyUsageAux us acc = .error (extKeyUsageErr u) := by
  induction us with
  | nil => intro acc u h; simp [firstBadExt] at h
  | cons v rest ih =>
    intro acc u h
    unfold firstBadExt at h
    cases hb : extBad v with
    | true =>
      rw [List.find?_cons_of_pos _ hb] at h
      have hvu : v = u := by simpa using h
      subst hvu
      have hcond : v < 0 ∨ (extKeyUsageStringValues.length : Int) ≤ v := by
        simpa [extBad] using hb
      unfold extKeyUsageAux
      rw [if_pos hcond]
    | false =>
      rw [List.find?_cons_of_neg _ (by simp [hb])] at h
      have hcond : ¬(v < 0 ∨ (extKeyUsageStringValues.length : Int) ≤ v) := by
        simpa [extBad, not_or] using hb
      unfold extKeyUsageAux
      rw [if_neg hcond]
      exact ih _ u h

theorem hexDigit_mem (n : Nat) : hexDigit n ∈ hexChars := by
  unfold hexDigit
  rcases Nat.lt_or_ge n 16 with h | h
  · interval_cases n <;> decide
  · rw [List.getD_eq_default]
    · decide
    · have hlen : hexChars.length = 16 := rfl
      omega

theorem hexByte_mem (b : Nat) : ∀ c ∈ hexByte b, c ∈ hexChars := by
  intro c hc
  unfold hexByte at hc
  rcases List.mem_cons.mp hc with h | h
  · exact h ▸ hexDigit_mem _
  · have : c = hexDigit (b % 16) := by simpa using h
    exact this ▸ hexDigit_mem _

theorem ofDigits_natBytesLEAux : ∀ fuel n : Nat, n ≤ fuel →
    Nat.ofDigits 256 (natBytesLEAux fuel n) = n := by
  intro fuel
  induction fuel with
  | zero =>
    intro n h
    have hn : n = 0 := by omega
    subst hn
    simp [natBytesLEAux]
  | succ f ih =>
    intro n h
    match n with
    | 0 => simp [natBytesLEAux]
    | m + 1 =>
      have hdiv : (m + 1) / 256 < m + 1 := Nat.div_lt_self (Nat.succ_pos m) (by decide)
      rw [natBytesLEAux, Nat.ofDigits_cons, ih ((m + 1) / 256) (by omega)]
      omega

theorem ofDigits_natBytesLE (n : Nat) : Nat.ofDigits 256 (natBytesLE n) = n :=
  ofDigits_natBytesLEAux n n (Nat.le_refl n)

/-! Claim theorems. -/

/-- C1, counterexample: `keyUsageToString` does not ignore set bits beyond
bit 8; at bitset 512 the rendering differs from the rendering of its low nine
bits (which are 0). -/
theorem keyUsageToString_512_ne_low_bits :
    keyUsageToString 512 ≠ keyUsageToString ((512 : Int) % 512) := by decide

/-- C1, amended: `keyUsageToString` never reports an error, but value in bits
beyond bit 8 is not ignored: the greedy subtraction loop absorbs it into the
smaller candidate values, so every bitset of value at least 511 renders as the
full nine-label string; hence the rendering of a bitset with bits ≥ 512 set
generally differs from that of its low nine bits alone. -/
theorem keyUsageToString_ge_511_all_labels (b : Int) (h : 511 ≤ b) :
    keyUsageToString b = "Digital Signature, Content Commitment, Key Encipherment, Data Encipherment, Key Agreement, Cert Sign, CRL Sign, Encipher Only, Decipher Only" := by
  unfold keyUsageToString keyUsagePossibleValues
  rw [keyUsageLoop_step b 256 _ (by omega) (by omega)]
  rw [keyUsageLoop_step (b - 256) 128 _ (by omega) (by omega)]
  rw [keyUsageLoop_step (b - 256 - 128) 64 _ (by omega) (by omega)]
  rw [keyUsageLoop_step (b - 256 - 128 - 64) 32 _ (by omega) (by omega)]
  rw [keyUsageLoop_step (b - 256 - 128 - 64 - 32) 16 _ (by omega) (by omega)]
  rw [keyUsageLoop_step (b - 256 - 128 - 64 - 32 - 16) 8 _ (by omega) (by omega)]
  rw [keyUsageLoop_step (b - 256 - 128 - 64 - 32 - 16 - 8) 4 _ (by omega) (by omega)]
  rw [keyUsageLoop_step (b - 256 - 128 - 64 - 32 - 16 - 8 - 4) 2 _ (by omega) (by omega)]
  rw [keyUsageLoop_last (b - 256 - 128 - 64 - 32 - 16 - 8 - 4 - 2) (by omega)]
  rfl

/-- C1, witness for the amended theorem at bitset 512. -/
theorem keyUsageToString_ge_511_all_labels_witness :
    keyUsageToString 512 = "Digital Signature, Content Commitment, Key Encipherment, Data Encipherment, Key Agreement, Cert Sign, CRL Sign, Encipher Only, Decipher Only" :=
  keyUsageToString_ge_511_all_labels 512 (by norm_num)

/-- C7: `keyUsageToString` renders 0 as the empty string, 1 as
"Digital Signature", 3 as "Digital Signature, Content Commitment" (smaller-bit
label first after the decode-then-reverse step), and 256 as "Decipher Only". -/
theorem keyUsageToString_examples :
    keyUsageToString 0 = "" ∧
    keyUsageToString 1 = "Digital Signature" ∧
    keyUsageToString 3 = "Digital Signature, Content Commitment" ∧
    keyUsageToString 256 = "Decipher Only" :=
  ⟨rfl, rfl, rfl, rfl⟩

/-- C2: `extKeyUsageToString` maps every code in [0, 13] to its label from the
14-entry table, preserving input order and joining with ", "; for an input
containing an out-of-range code it returns the "unknown Extended Usage" error
naming the first offending code and no partial result, as at the spec's
examples `[0, 1]`, `[14]` and `[-1]`. -/
theorem extKeyUsageToString_spec :
    (∀ us : List Int, (∀ u ∈ us, 0 ≤ u ∧ u ≤ 13) →
      extKeyUsageToString us = .ok (String.intercalate ", "
        (us.map (fun u => extKeyUsageStringValues.getD u.toNat "")))) ∧
    (∀ (us : List Int) (u : Int), firstBadExt us = some u →
      extKeyUsageToString us = .error (extKeyUsageErr u)) ∧
    extKeyUsageToString [0, 1] = .ok "Any, Server Authentication" ∧
    extKeyUsageToString [14] = .error (extKeyUsageErr 14) ∧
    extKeyUsageToString [-1] = .error (extKeyUsageErr (-1)) ∧
    extKeyUsageErr 14 = "error when converting Extended Usages to string: encountered unknown Extended Usage with code 14" ∧
    extKeyUsageErr (-1) = "error when converting Extended Usages to string: encountered unknown Extended Usage with code -1" := by
  refine ⟨?_, ?_, rfl, rfl, rfl, rfl, rfl⟩
  · intro us h
    have hgood : ∀ u ∈ us, extBad u = false := by
      intro u hu
      have hb := h u hu
      simp only [extBad, extKeyUsageStringValues, List.length_cons, List.length_nil,
        Bool.or_eq_false_iff, decide_eq_false_iff_not]
      omega
    simpa using extKeyUsageAux_ok us [] hgood
  · intro us u h
    exact extKeyUsageAux_err us [] u h

/-- C2, witness: the order-preserving success case at `[2, 3]` and the
first-offending-code error case at `[5, 99]`. -/
theorem extKeyUsageToString_spec_witness :
    extKeyUsageToString [2, 3] = .ok (String.intercalate ", "
      (([2, 3] : List Int).map (fun u => extKeyUsageStringValues.getD u.toNat ""))) ∧
    extKeyUsageToString [5, 99] = .error (extKeyUsageErr 99) :=
  ⟨extKeyUsageToString_spec.1 [2, 3] (by decide),
   extKeyUsageToString_spec.2.1 [5, 99] 99 (by decide)⟩

/-- C3: a `with*` call carrying a non-nil error sets only its own sub-report
to the failed state holding exactly that error, leaving every other builder
field unchanged: `withIssuer`/`withClusterIssuer` touch only `IssuerStatus`,
`withSecret` only `SecretStatus`, and `withCR` only `CRStatus`. -/
theorem with_error_isolation :
    (∀ (b : CertificateStatusBuilder) (i : Option Issuer) (e : String),
      withIssuer b i (some e) = { b with IssuerStatus := some ⟨some e, "", "", []⟩ }) ∧
    (∀ (b : CertificateStatusBuilder) (ci : Option ClusterIssuer) (e : String),
      withClusterIssuer b ci (some e) = { b with IssuerStatus := some ⟨some e, "", "", []⟩ }) ∧
    (∀ (d : List Nat → Except String X509Cert) (b : CertificateStatusBuilder)
        (s : Option Secret) (e : String),
      withSecret d b s (some e) = { b with SecretStatus := some (failedSecretStatus e) }) ∧
    (∀ (b : CertificateStatusBuilder) (r : Option CertificateRequest)
        (ev : Option EventList) (e : String),
      withCR b r ev (some e) = { b with CRStatus := some ⟨some e, "", "", [], none⟩ }) :=
  ⟨fun _ _ _ => rfl, fun _ _ _ => rfl, fun _ _ _ _ => rfl, fun _ _ _ _ => rfl⟩

/-- C6: `withCR` with a nil error and a non-nil request sets `CRStatus` to the
ok state of that request's name, namespace and conditions and overwrites the
builder's `Events` field with the supplied list; with a non-nil error or a nil
request the `Events` field is left unchanged. -/
theorem withCR_events_spec :
    (∀ (b : CertificateStatusBuilder) (r : CertificateRequest) (ev : Option EventList),
      withCR b (some r) ev none =
        { b with Events := ev, CRStatus := some ⟨none, r.Name, r.Namespace, r.Conditions, none⟩ }) ∧
    (∀ (b : CertificateStatusBuilder) (r : Option CertificateRequest)
        (ev : Option EventList) (e : String),
      (withCR b r ev (some e)).Events = b.Events) ∧
    (∀ (b : CertificateStatusBuilder) (ev : Option EventList),
      withCR b none ev none = b) :=
  ⟨fun _ _ _ => rfl, fun _ _ _ _ => rfl, fun _ _ => rfl⟩

/-- C4: contrary to the claim that rendering has no observable effect besides
the returned string, `CRStatus.String` on a non-failed report prints the event
buffer's byte representation to standard output via `fmt.Println(buf.Bytes())`
on every call — a leftover debug statement; its recorded stdout output is
non-empty even for an empty buffer. -/
theorem crStatus_render_prints_to_stdout :
    (CRStatus.render (fun _ => "") ⟨none, "example-cr", "default", [], none⟩).2 = ["[]\n"] ∧
    (CRStatus.render (fun _ => "") ⟨none, "example-cr", "default", [], none⟩).2 ≠ [] :=
  ⟨rfl, by decide⟩

/-- C5: for every failed sub-report (error field non-nil), the rendering of
`IssuerStatus`, `SecretStatus` and `CRStatus` is exactly the stored error's
message and nothing else (for `CRStatus` also nothing is printed), regardless
of the other fields. -/
theorem failed_render_is_error_message :
    (∀ (st : IssuerStatus) (e : String), st.Error = some e → st.render = e) ∧
    (∀ (st : SecretStatus) (e : String), st.Error = some e → st.render = e) ∧
    (∀ (f : Option EventList → String) (st : CRStatus) (e : String),
      st.Error = some e → CRStatus.render f st = (e, [])) := by
  refine ⟨?_, ?_, ?_⟩
  · intro st e h; simp [IssuerStatus.render, h]
  · intro st e h; simp [SecretStatus.render, h]
  · intro f st e h; simp [CRStatus.render, h]

/-- C5, witness: each failed renderer at a concrete error "boom". -/
theorem failed_render_is_error_message_witness :
    IssuerStatus.render ⟨some "boom", "", "", []⟩ = "boom" ∧
    SecretStatus.render (failedSecretStatus "boom") = "boom" ∧
    CRStatus.render (fun _ => "") ⟨some "boom", "", "", [], none⟩ = ("boom", []) :=
  ⟨failed_render_is_error_message.1 _ "boom" rfl,
   failed_render_is_error_message.2.1 _ "boom" rfl,
   failed_render_is_error_message.2.2 _ _ "boom" rfl⟩

/-- C8: `withSecret` with a nil error and a non-nil secret sets a failed
`SecretStatus` — with the "is not set" error when the secret's "tls.crt" data
is empty or missing, and with the wrapping parse error when the bytes fail
X.509 decoding — touching no other builder field; both messages contain the
secret's name, and the parse message also the decoder's error. -/
theorem withSecret_failure_modes :
    (∀ (d : List Nat → Except String X509Cert) (b : CertificateStatusBuilder) (s : Secret),
      ((s.Data.lookup "tls.crt").getD []).length = 0 →
      withSecret d b (some s) none = { b with SecretStatus := some (failedSecretStatus
        ("error: 'tls.crt' of Secret " ++ goQuote s.Name ++ " is not set\n")) }) ∧
    (∀ (d : List Nat → Except String X509Cert) (b : CertificateStatusBuilder)
        (s : Secret) (e : String),
      ((s.Data.lookup "tls.crt").getD []).length ≠ 0 →
      d ((s.Data.lookup "tls.crt").getD []) = .error e →
      withSecret d b (some s) none = { b with SecretStatus := some (failedSecretStatus
        ("error when parsing 'tls.crt' of Secret " ++ goQuote s.Name ++ ": " ++ e ++ "\n")) }) ∧
    (∀ nm : String, ∃ pre post : String,
      "error: 'tls.crt' of Secret " ++ goQuote nm ++ " is not set\n" = pre ++ (nm ++ post)) ∧
    (∀ nm e : String, ∃ pre mid post : String,
      "error when parsing 'tls.crt' of Secret " ++ goQuote nm ++ ": " ++ e ++ "\n" =
        pre ++ (nm ++ (mid ++ (e ++ post)))) := by
  refine ⟨?_, ?_, ?_, ?_⟩
  · intro d b s h
    simp only [withSecret]
    rw [if_pos h]
  · intro d b s e h1 h2
    simp only [withSecret]
    rw [if_neg h1, h2]
  · intro nm
    refine ⟨"error: 'tls.crt' of Secret " ++ "\"", "\"" ++ " is not set\n", ?_⟩
    simp only [goQuote, String.append_assoc]
  · intro nm e
    refine ⟨"error when parsing 'tls.crt' of Secret " ++ "\"", "\"" ++ ": ", "\n", ?_⟩
    simp only [goQuote, String.append_assoc]

/-- C8, witness: a secret with no "tls.crt" data and a secret whose bytes the
decoder rejects with "bad der". -/
theorem withSecret_failure_modes_witness :
    withSecret (fun _ => Except.error "bad der") sampleBuilder (some ⟨"my-secret", []⟩) none =
      { sampleBuilder with SecretStatus := some (failedSecretStatus
        ("error: 'tls.crt' of Secret " ++ goQuote "my-secret" ++ " is not set\n")) } ∧
    withSecret (fun _ => Except.error "bad der") sampleBuilder
        (some ⟨"my-secret", [("tls.crt", [48, 130])]⟩) none =
      { sampleBuilder with SecretStatus := some (failedSecretStatus
        ("error when parsing 'tls.crt' of Secret " ++ goQuote "my-secret" ++ ": " ++ "bad der" ++ "\n")) } :=
  ⟨withSecret_failure_modes.1 _ sampleBuilder ⟨"my-secret", []⟩ rfl,
   withSecret_failure_modes.2.1 _ sampleBuilder ⟨"my-secret", [("tls.crt", [48, 130])]⟩
     "bad der" (by decide) rfl⟩

/-- C9: in the ok renderings of `IssuerStatus` and `CRStatus`, zero conditions
produce the literal "No Conditions set" line, and the condition block of a
non-empty list is the concatenation, in insertion order without deduplication
or sorting, of one newline-terminated line per condition of the form shown by
the {Ready, True, Issued, Certificate issued} example. -/
theorem condition_rendering_spec :
    renderConditions [] = "  No Conditions set\n" ∧
    (∀ (con : Condition) (cs : List Condition),
      renderConditions (con :: cs) = catStrings ((con :: cs).map condLine)) ∧
    condLine ⟨"Ready", "True", "Issued", "Certificate issued"⟩ =
      "  Ready: True, Reason: Issued, Message: Certificate issued\n" ∧
    (∀ st : IssuerStatus, st.Error = none →
      st.render = "Issuer:\n  Name: " ++ st.Name ++ "\n  Kind: " ++ st.Kind ++
        "\n  Conditions:\n  " ++ renderConditions st.Conditions) ∧
    (∀ (f : Option EventList → String) (st : CRStatus), st.Error = none →
      (CRStatus.render f st).1 = "CertificateRequest:" ++
        ("\n  Name: " ++ st.Name ++ "\n  Namespace: " ++ st.Namespace ++
          "\n  Conditions:\n  " ++ renderConditions st.Conditions) ++ f st.Events) := by
  refine ⟨rfl, ?_, rfl, ?_, ?_⟩
  · intro con cs
    have hne : catStrings ((con :: cs).map condLine) ≠ "" := by
      simp only [List.map_cons, catStrings]
      exact append_ne_empty_of_left_ne _ _ (condLine_ne_empty con)
    simp only [renderConditions]
    rw [foldl_condLine, String.empty_append, if_neg hne]
  · intro st h
    simp [IssuerStatus.render, h, renderConditions]
  · intro f st h
    simp [CRStatus.render, h, renderConditions]

/-- C9, witness: an ok issuer report with no conditions renders the literal
"No Conditions set" line, and a one-condition list renders its single line. -/
theorem condition_rendering_spec_witness :
    renderConditions [⟨"Ready", "True", "Issued", "Certificate issued"⟩] =
      catStrings ([(⟨"Ready", "True", "Issued", "Certificate issued"⟩ : Condition)].map condLine) ∧
    IssuerStatus.render ⟨none, "my-issuer", "Issuer", []⟩ =
      "Issuer:\n  Name: " ++ "my-issuer" ++ "\n  Kind: " ++ "Issuer" ++
        "\n  Conditions:\n  " ++ renderConditions [] :=
  ⟨condition_rendering_spec.2.1 _ [],
   condition_rendering_spec.2.2.2.1 ⟨none, "my-issuer", "Issuer", []⟩ rfl⟩

/-- C10: the ok rendering of `SecretStatus` shows the Serial Number as the
lowercase hex encoding of the big-endian magnitude bytes of the
arbitrary-precision serial (255 renders as "ff") and the Subject/Authority
Key IDs as lowercase hex of their bytes: the rendering equation, the "ff"
example, the lowercase-hex-alphabet property of the encoder, and the fact
that the encoded bytes are the base-256 big-endian digits of the magnitude. -/
theorem secret_render_hex_spec :
    (∀ st : SecretStatus, st.Error = none →
      st.render = "Secret:\n  Name: " ++ st.Name ++
        "\n  Issuer Country: " ++ String.intercalate ", " st.IssuerCountry ++
        "\n  Issuer Organisation: " ++ String.intercalate ", " st.IssuerOrganisation ++
        "\n  Issuer Common Name: " ++ st.IssuerCommonName ++
        "\n  Key Usage: " ++ keyUsageToString st.KeyUsage ++
        "\n  Extended Key Usages: " ++
          (match extKeyUsageToString st.ExtKeyUsage with | .ok s => s | .error e => e) ++
        "\n  Public Key Algorithm: " ++ st.PublicKeyAlgorithm ++
        "\n  Signature Algorithm: " ++ st.SignatureAlgorithm ++
        "\n  Subject Key ID: " ++ hexEncodeToString st.SubjectKeyId ++
        "\n  Authority Key ID: " ++ hexEncodeToString st.AuthorityKeyId ++
        "\n  Serial Number: " ++ hexEncodeToString (bigIntBytes st.SerialNumber) ++ "\n") ∧
    hexEncodeToString (bigIntBytes 255) = "ff" ∧
    (∀ bs : List Nat, ∀ c ∈ (hexEncodeToString bs).data, c ∈ hexChars) ∧
    (∀ n : Nat, Nat.ofDigits 256 ((bigIntBytes (n : Int)).reverse) = n) := by
  refine ⟨?_, rfl, ?_, ?_⟩
  · intro st h
    simp [SecretStatus.render, h]
  · intro bs c hc
    unfold hexEncodeToString at hc
    simp only [List.mem_flatten, List.mem_map] at hc
    obtain ⟨l, ⟨b, _, hb⟩, hcl⟩ := hc
    exact hexByte_mem b c (hb ▸ hcl)
  · intro n
    rw [bigIntBytes, List.reverse_reverse, Int.natAbs_ofNat]
    exact ofDigits_natBytesLE n

/-- C10, witness: a concrete ok credential report with serial number 255. -/
theorem secret_render_hex_spec_witness :
    SecretStatus.render ⟨none, "my-secret", ["US"], ["Example Org"], "example CA",
        1, [1], "RSA", "SHA256-RSA", [1, 171], [205], 255⟩ =
      "Secret:\n  Name: " ++ "my-secret" ++
        "\n  Issuer Country: " ++ String.intercalate ", " ["US"] ++
        "\n  Issuer Organisation: " ++ String.intercalate ", " ["Example Org"] ++
        "\n  Issuer Common Name: " ++ "example CA" ++
        "\n  Key Usage: " ++ keyUsageToString 1 ++
        "\n  Extended Key Usages: " ++
          (match extKeyUsageToString [1] with | .ok s => s | .error e => e) ++
        "\n  Public Key Algorithm: " ++ "RSA" ++
        "\n  Signature Algorithm: " ++ "SHA256-RSA" ++
        "\n  Subject Key ID: " ++ hexEncodeToString [1, 171] ++
        "\n  Authority Key ID: " ++ hexEncodeToString [205] ++
        "\n  Serial Number: " ++ hexEncodeToString (bigIntBytes 255) ++ "\n" :=
  secret_render_hex_spec.1 ⟨none, "my-secret", ["US"], ["Example Org"], "example CA",
    1, [1], "RSA", "SHA256-RSA", [1, 171], [205], 255⟩ rfl

end CertStatus
